import Mathlib

/-!
Verification development for the pretty-loguru logging-lifecycle core.

The definitions below are a shallow embedding of the Python source:

* `src/pretty_loguru/factory/creator.py` — `create_logger`, `reinit_logger`,
  the module-level `_logger_registry` and `_cleaner_started` globals;
* `src/pretty_loguru/factory/proxy.py` — `LoggerProxy._get_current_logger`,
  `update_target`, `create_logger_proxy`;
* `src/pretty_loguru/core/registry.py` — `subscribe` / `post_event`;
* `src/pretty_loguru/core/presets.py` — `get_preset_config` and the table
  `PRESET_CONFIGS`;
* `src/pretty_loguru/logger_base.py` — `create_destination_filters`,
  `LoggerClear.start`, `LoggerClear.__clean_old_log_loop`, `init_logger`;
* `src/pretty_loguru/logger_init.py` — `logger_start`.

Python objects are modelled by values; object identity of proxies is modelled
by an index (`pid`) into the list of proxy objects allocated so far, and
identity of concrete logger objects by a counter `next_conc` of allocations.
Python dictionaries are modelled by association lists with in-place update.
-/

namespace PrettyLoguru

/-- Association-list lookup, modelling Python `dict.get` / `in`. -/
def dictGet {α : Type} (m : List (String × α)) (k : String) : Option α :=
  match m with
  | [] => none
  | (k0, v) :: rest => if k0 = k then some v else dictGet rest k

/-- Association-list update, modelling Python `dict[k] = v` (replace in place,
append at the end when the key is new). -/
def dictSet {α : Type} (m : List (String × α)) (k : String) (v : α) :
    List (String × α) :=
  match m with
  | [] => [(k, v)]
  | (k0, v0) :: rest =>
    if k0 = k then (k, v) :: rest else (k0, v0) :: dictSet rest k v

/-- Association-list removal, modelling Python `dict.pop(k, None)`. -/
def dictPop {α : Type} (m : List (String × α)) (k : String) :
    List (String × α) :=
  match m with
  | [] => []
  | (k0, v0) :: rest =>
    if k0 = k then dictPop rest k else (k0, v0) :: dictPop rest k

/-- What the creator registry `_logger_registry` can hold: a concrete
`EnhancedLogger` (identified by its allocation number) or a `LoggerProxy`
object (identified by its index in the proxy-object list). -/
inductive Handle where
  | conc (cid : Nat)
  | prox (pid : Nat)
deriving DecidableEq, Repr

/-- State of one `LoggerProxy` object (`factory/proxy.py`): the
`_target_logger` field, the `_registry_name` field, and whether
`set_registry_getter` was called (`_registry_getter is not None`). -/
structure ProxyState where
  target_logger : Handle
  registry_name : Option String
  has_getter : Bool
deriving DecidableEq, Repr

/-- State of one `LoggerClear` sweeper object (`logger_base.py`): the
`__is_running` flag, whether `clear_thread.start()` has been called
(i.e. a background worker exists), and the directory the worker scans. -/
structure LoggerClear where
  is_running : Bool
  thread_started : Bool
  dir : String
deriving DecidableEq, Repr

/-- Modelled from the spec: `core/cleaner.py` (class `LoggerCleaner`) is not
under `src/`; the factory calls `LoggerCleaner()` with no arguments, so the
sweeper is constructed with its default target directory (the library default
log path, as in `LoggerClear` whose `log_path` defaults to the module-level
`log_path = Path.cwd() / "logs"`), never with the handle's own output
directory. -/
def defaultLogPath : String := "logs"

/-- `LoggerClear.start` (`logger_base.py` lines 449 to 456): if the sweeper is
already running, only log a message; otherwise start the worker thread and set
the running flag. The second component reports whether a new worker thread was
spawned by this call. -/
def LoggerClear.start (c : LoggerClear) : LoggerClear × Bool :=
  if c.is_running then (c, false)
  else ({ c with thread_started := true, is_running := true }, true)

/-- One preset entry from `PRESET_CONFIGS` in `core/presets.py`. The
`compression` value is a rename closure or `None`; only its presence is
relevant here. -/
structure PresetConfig where
  rotation : String
  retention : String
  has_compression : Bool
  name_format : String
deriving DecidableEq, Repr

/-- The `PRESET_CONFIGS` table of `core/presets.py`. -/
def PRESET_CONFIGS : List (String × PresetConfig) :=
  [ ("detailed", { rotation := "20 MB", retention := "30 days",
                   has_compression := true,
                   name_format := "[{component_name}]{timestamp}.log" }),
    ("simple", { rotation := "20 MB", retention := "30 days",
                 has_compression := false,
                 name_format := "{component_name}.log" }),
    ("daily", { rotation := "1 day", retention := "30 days",
                has_compression := true,
                name_format := "[{component_name}]daily_latest.temp.log" }),
    ("hourly", { rotation := "1 hour", retention := "7 days",
                 has_compression := true,
                 name_format := "[{component_name}]hourly_latest.temp.log" }),
    ("minute", { rotation := "1 minute", retention := "24 hours",
                 has_compression := true,
                 name_format := "[{component_name}]minute_latest.temp.log" }),
    ("weekly", { rotation := "1 week", retention := "12 weeks",
                 has_compression := true,
                 name_format := "[{component_name}]weekly_latest.temp.log" }),
    ("monthly", { rotation := "1 month", retention := "12 months",
                  has_compression := true,
                  name_format := "[{component_name}]monthly_latest.temp.log" }) ]

/-- `get_preset_config` (`core/presets.py` lines 91 to 107): look the preset up
in `PRESET_CONFIGS`, raising `ValueError` (modelled as `Except.error`) when the
name is unknown. -/
def get_preset_config (preset : String) : Except String PresetConfig :=
  match dictGet PRESET_CONFIGS preset with
  | some c => Except.ok c
  | none => Except.error ("Unknown preset type: " ++ preset)

/-- `_get_preset` (`factory/creator.py` lines 244 to 250): catch the
`ValueError` and fall back to `"detailed"` with a `UserWarning`. The second
component records whether the warning was issued. -/
def getPresetFallback (preset : String) : Except String PresetConfig × Bool :=
  match get_preset_config preset with
  | Except.ok c => (Except.ok c, false)
  | Except.error _ => (get_preset_config "detailed", true)

/-- The whole mutable module state touched by the factory, the proxies, the
event system and the cleaner guard:

* `registry` — `_logger_registry` in `factory/creator.py`;
* `proxies` — every `LoggerProxy` object allocated so far, indexed by `pid`;
* `next_conc` — allocation counter for concrete `_Logger` objects;
* `cleaner_started` — the module-level `_cleaner_started` flag;
* `cleaners` — every sweeper object allocated by the factory;
* `listeners` — `_listeners` in `core/registry.py`, flattened to
  (event name, callback id) pairs in subscription order;
* `events` — names of the events posted through `post_event` so far;
* `invoked` — callback ids invoked by `post_event`, in invocation order;
* `warnings_log` — messages passed to `warnings.warn`;
* `last_conc` — specification bookkeeping only (not part of the Python
  state): the id of the concrete handle most recently built and installed
  for each name, used to state the no-stale-target property. -/
structure FactoryState where
  registry : List (String × Handle)
  proxies : List ProxyState
  next_conc : Nat
  cleaner_started : Bool
  cleaners : List LoggerClear
  listeners : List (String × Nat)
  events : List String
  invoked : List Nat
  warnings_log : List String
  last_conc : List (String × Nat)
deriving DecidableEq, Repr

/-- The initial module state: empty registry, no proxies, no cleaner. -/
def initState : FactoryState :=
  { registry := [], proxies := [], next_conc := 0, cleaner_started := false,
    cleaners := [], listeners := [], events := [], invoked := [],
    warnings_log := [], last_conc := [] }

/-- `subscribe` (`core/registry.py` lines 37 to 41): append the callback to the
listener list of the event. -/
def subscribe (st : FactoryState) (event : String) (cb : Nat) : FactoryState :=
  { st with listeners := st.listeners ++ [(event, cb)] }

/-- `post_event` (`core/registry.py` lines 43 to 50): record the event and
invoke every callback subscribed to it, in subscription order (exceptions in a
callback are printed and skipped, which does not change which callbacks run). -/
def post_event (st : FactoryState) (event : String) : FactoryState :=
  { st with
    events := st.events ++ [event],
    invoked := st.invoked ++
      (st.listeners.filter (fun l => l.1 = event)).map (fun l => l.2) }

/-- In-place update of the `_target_logger` field of proxy object `pid`,
modelling `LoggerProxy.update_target` (`factory/proxy.py` lines 56 to 63). -/
def setProxyTarget : List ProxyState → Nat → Handle → List ProxyState
  | [], _, _ => []
  | p :: rest, 0, h => { p with target_logger := h } :: rest
  | p :: rest, i + 1, h => p :: setProxyTarget rest i h

/-- Step 8 of `create_logger` (`factory/creator.py` lines 150 to 155): when
`start_cleaner` is requested and the process-wide `_cleaner_started` flag is
still unset, construct a sweeper with `LoggerCleaner()` (no arguments, hence
the default directory), start it, and set the flag; otherwise do nothing. -/
def maybeStartCleaner (st : FactoryState) (start_cleaner : Bool) :
    FactoryState :=
  if start_cleaner && !st.cleaner_started then
    { st with
      cleaners := st.cleaners ++
        [{ is_running := true, thread_started := true,
           dir := defaultLogPath }],
      cleaner_started := true }
  else st

/-- The build path of `create_logger` (`factory/creator.py` lines 87 to 165),
entered when the idempotent-reuse check does not return early: resolve the
preset (step 3; an unknown preset raises `ValueError` before any state is
mutated), allocate a new concrete logger (step 5), start the cleaner if
requested and none was started before (step 8), wrap in a fresh proxy when
`use_proxy` is set (step 9), and register the result (step 10). -/
def createLoggerBuild (st : FactoryState) (name : String)
    (preset : String) (use_proxy start_cleaner : Bool) :
    Except String Handle × FactoryState :=
  match get_preset_config preset with
  | Except.error e => (Except.error e, st)
  | Except.ok _ =>
    let cid := st.next_conc
    let st2 := maybeStartCleaner { st with next_conc := cid + 1 } start_cleaner
    match use_proxy with
    | true =>
      let pid := st2.proxies.length
      let newProxy : ProxyState :=
        { target_logger := Handle.conc cid, registry_name := some name,
          has_getter := true }
      let st3 := { st2 with proxies := st2.proxies ++ [newProxy] }
      (Except.ok (Handle.prox pid),
       { st3 with
         registry := dictSet st3.registry name (Handle.prox pid),
         last_conc := dictSet st3.last_conc name cid })
    | false =>
      (Except.ok (Handle.conc cid),
       { st2 with
         registry := dictSet st2.registry name (Handle.conc cid),
         last_conc := dictSet st2.last_conc name cid })

set_option linter.unusedVariables false in
/-- `create_logger` (`factory/creator.py` lines 38 to 165). The `log_path`
argument only configures the handle's sinks (out of the lifecycle model); in
particular the factory never passes it to the cleaner — the call
`LoggerCleaner()` at line 153 takes no arguments. When `force_new_instance`
is false and the name is registered, the registered handle is returned
unchanged (lines 82 to 85); otherwise the build path runs. -/
def create_logger (st : FactoryState) (name : String)
    (log_path : Option String) (preset : String)
    (force_new use_proxy start_cleaner : Bool) :
    Except String Handle × FactoryState :=
  match force_new with
  | false =>
    match dictGet st.registry name with
    | some h => (Except.ok h, st)
    | none => createLoggerBuild st name preset use_proxy start_cleaner
  | true => createLoggerBuild st name preset use_proxy start_cleaner

/-- The warning text issued by `reinit_logger` for an unknown name. -/
def reinitWarning (name : String) : String :=
  "Logger '" ++ name ++ "' does not exist, cannot reinitialize"

/-- `reinit_logger` (`factory/creator.py` lines 191 to 232). An unregistered
name yields a `UserWarning` and `None`. A registered proxy entry is popped,
a brand-new concrete logger is built with `force_new_instance=True` and
`use_proxy=False`, the original proxy is retargeted via `update_target` and
put back into the registry; if the build raises, the popped entry is restored
before the exception propagates. A registered non-proxy entry is simply
rebuilt with `force_new_instance=True`. -/
def reinit_logger (st : FactoryState) (name : String)
    (log_path : Option String) (preset : String)
    (use_proxy start_cleaner : Bool) :
    Except String (Option Handle) × FactoryState :=
  match dictGet st.registry name with
  | none =>
    (Except.ok none,
     { st with warnings_log := st.warnings_log ++ [reinitWarning name] })
  | some (Handle.prox pid) =>
    let st1 := { st with registry := dictPop st.registry name }
    match create_logger st1 name log_path preset true false start_cleaner with
    | (Except.ok newH, st2) =>
      let st3 := { st2 with proxies := setProxyTarget st2.proxies pid newH }
      (Except.ok (some (Handle.prox pid)),
       { st3 with registry := dictSet st3.registry name (Handle.prox pid) })
    | (Except.error e, st2) =>
      (Except.error e,
       { st2 with registry := dictSet st2.registry name (Handle.prox pid) })
  | some (Handle.conc _) =>
    match create_logger st name log_path preset true use_proxy start_cleaner with
    | (Except.ok h, st2) => (Except.ok (some h), st2)
    | (Except.error e, st2) => (Except.error e, st2)

/-- `LoggerProxy._get_current_logger` (`factory/proxy.py` lines 42 to 54):
when a registry getter and a registry name are present, resolve through the
registry at the moment of the call, unwrapping one proxy level; otherwise fall
back to the cached `_target_logger`. The `Handle.conc 0` in the impossible
branch (a registry entry naming a proxy object that does not exist) is an
arbitrary value; the reachability invariant below shows it is never used. -/
def getCurrentLogger (st : FactoryState) (p : ProxyState) : Handle :=
  if p.has_getter then
    match p.registry_name with
    | some n =>
      match dictGet st.registry n with
      | some (Handle.prox q) =>
        match st.proxies[q]? with
        | some pq => pq.target_logger
        | none => Handle.conc 0
      | some h => h
      | none => p.target_logger
    | none => p.target_logger
  else p.target_logger

/-- Call `start()` on the sweeper object at index `i` (a second `start` on an
object that is already running is the guarded no-op of `LoggerClear.start`). -/
def cleanerStartAt : List LoggerClear → Nat → List LoggerClear
  | [], _ => []
  | c :: rest, 0 => (LoggerClear.start c).1 :: rest
  | c :: rest, i + 1 => c :: cleanerStartAt rest i

/-- The operations a program can perform against the module state. -/
inductive Op where
  | create (name : String) (log_path : Option String) (preset : String)
      (force_new use_proxy start_cleaner : Bool)
  | reinit (name : String) (log_path : Option String) (preset : String)
      (use_proxy start_cleaner : Bool)
  | startAgain (i : Nat)
  | subscribeOp (event : String) (cb : Nat)
deriving DecidableEq, Repr

/-- Apply one operation to the module state, discarding the return value. -/
def applyOp (st : FactoryState) : Op → FactoryState
  | Op.create n lp p fN uP sC => (create_logger st n lp p fN uP sC).2
  | Op.reinit n lp p uP sC => (reinit_logger st n lp p uP sC).2
  | Op.startAgain i => { st with cleaners := cleanerStartAt st.cleaners i }
  | Op.subscribeOp e cb => subscribe st e cb

/-- Run a sequence of operations from the initial module state. -/
def runOps (ops : List Op) : FactoryState :=
  ops.foldl applyOp initState

/-- Number of active sweeper workers whose target is `dir`. -/
def numWorkers (st : FactoryState) (dir : String) : Nat :=
  (st.cleaners.filter
    (fun c => c.thread_started && decide (c.dir = dir))).length

/-- A file met by `os.walk` during a sweep over the target tree (the walk is
recursive, so this covers files in subdirectories as well): its base name, the
`os.path.isfile` and `os.path.exists` answers at scan time, its creation time
`os.path.getctime` and its last-modified time (both as Unix seconds), and
whether `os.remove` would succeed on it. -/
structure LogFile where
  name : String
  is_file : Bool
  exists_now : Bool
  ctime : Int
  mtime : Int
  removable : Bool
deriving DecidableEq, Repr

/-- Seconds in one day, the unit of `timedelta(days=...)`. -/
def secondsPerDay : Int := 86400

/-- Python `file.startswith(".")`: the name's first character is a dot. -/
def startsWithDot (s : String) : Bool :=
  match s.toList with
  | [] => false
  | c :: _ => c = '.'

/-- Decimal digits to a number, `none` when a non-digit occurs or the list is
empty. -/
def digitsToNat (ds : List Char) : Option Nat :=
  if ds.isEmpty then none
  else
    ds.foldl
      (fun acc c =>
        match acc with
        | some n => if c.isDigit then some (10 * n + (c.toNat - 48)) else none
        | none => none)
      (some 0)

/-- Python `int(...)` applied to the retention string: an optional sign
followed by decimal digits (`int` also strips whitespace, which does not
occur in the inputs here); a non-integer string raises `ValueError`,
modelled as `none`. -/
def pyInt (s : String) : Option Int :=
  match s.toList with
  | '-' :: ds => (digitsToNat ds).map (fun n => -(n : Int))
  | '+' :: ds => (digitsToNat ds).map (fun n => (n : Int))
  | ds => (digitsToNat ds).map (fun n => (n : Int))

/-- The `is_expired_days` computation of `LoggerClear.__clean_old_log_loop`
(`logger_base.py` lines 484 to 491): compare the file's creation time against
`(now - timedelta(days=int(log_retention))).timestamp()`; when
`int(log_retention)` raises `ValueError` (a non-integer retention string, see
`pyInt`) the file counts as not expired. -/
def isExpiredDays (now : Int) (log_retention : String) (f : LogFile) : Bool :=
  match pyInt log_retention with
  | some d => decide (f.ctime < now - d * secondsPerDay)
  | none => false

/-- The per-file body of `LoggerClear.__clean_old_log_loop` (`logger_base.py`
lines 475 to 498): skip hidden files and files that vanished, delete a regular
expired file, and on a delete failure log a warning and continue. Returns
whether the file was deleted, together with the log lines produced. -/
def sweepFile (now : Int) (log_retention : String) (f : LogFile) :
    Bool × List String :=
  if startsWithDot f.name then (false, [])
  else if !f.exists_now then (false, [])
  else if f.is_file && isExpiredDays now log_retention f then
    if f.removable then (true, ["Logger: Clean Log: " ++ f.name])
    else (false, ["Logger: Cannot remove log file " ++ f.name])
  else (false, [])

/-- `LoggerClear.__clean_old_log_loop` (`logger_base.py` lines 458 to 500),
the entire body of the sweeper thread: when the target directory does not
exist it is created and the thread returns; otherwise one sweep over the
walked files runs and the thread returns. There is no repeat loop and no
sleep in the source. Returns the surviving files and the log lines. -/
def clean_old_log_loop (dir_exists : Bool) (now : Int) (log_retention : String)
    (files : List LogFile) : List LogFile × List String :=
  if !dir_exists then (files, [])
  else
    (files.filter (fun f => !(sweepFile now log_retention f).1),
     files.foldr (fun f acc => (sweepFile now log_retention f).2 ++ acc) [])

/-- Specification-side restatement of the delete condition actually
implemented: a file is removed exactly when it is not hidden, still exists,
is a regular file, its creation time is strictly older than
now minus `int(log_retention)` days, and the removal succeeds. -/
def shouldDelete (now : Int) (log_retention : String) (f : LogFile) : Bool :=
  !startsWithDot f.name && f.exists_now && f.is_file &&
    isExpiredDays now log_retention f && f.removable

/-- A log record as the destination filters see it: the `to_console_only` and
`to_log_file_only` extras and the free-form tags bound on the record. -/
structure LogRecord where
  to_console_only : Bool
  to_log_file_only : Bool
  tags : List String
deriving DecidableEq, Repr

/-- The console filter built by `create_destination_filters` (`logger_base.py`
lines 71 to 76): a record explicitly marked file-only is rejected; everything
else passes. The record's tags are never consulted. -/
def console_filter (r : LogRecord) : Bool :=
  if r.to_log_file_only then false else true

/-- The file filter built by `create_destination_filters` (`logger_base.py`
lines 78 to 83): a record explicitly marked console-only is rejected;
everything else passes. The record's tags are never consulted. -/
def file_filter (r : LogRecord) : Bool :=
  if r.to_console_only then false else true

/-- `LoggerProxy.console_debug` and friends (`factory/proxy.py` lines 74 to
96) emit through `bind(to_console_only=True)`. -/
def bindConsoleOnly (r : LogRecord) : LogRecord :=
  { r with to_console_only := true }

/-- `LoggerProxy.file_debug` and friends (`factory/proxy.py` lines 98 to 120)
emit through `bind(to_log_file_only=True)`. -/
def bindFileOnly (r : LogRecord) : LogRecord :=
  { r with to_log_file_only := true }

/-- The keyword parameters accepted by `init_logger` (`logger_base.py` lines
160 to 172), taken from its signature. -/
def initLoggerAcceptedParams : List String :=
  ["level", "log_path", "process_id", "rotation", "subdirectory",
   "log_name_format", "timestamp_format", "log_file_settings",
   "logger_instance", "service_name", "isolate_handlers", "unique_id"]

/-- The keys of the `logger_config` dictionary that `logger_start`
(`logger_init.py` lines 137 to 153) always passes to `init_logger` via
`init_logger(**logger_config)`. -/
def loggerStartConfigKeys : List String :=
  ["process_id", "log_path", "subdirectory", "log_name_format",
   "timestamp_format", "log_file_settings", "tag_filter_config"]

/-- Coherence of the module state: every registered concrete handle is the one
most recently built for its name, and every registered proxy is a live proxy
object bound to that name, holding the registry getter, whose cached target is
the concrete handle most recently built for that name. -/
def RegInv (st : FactoryState) : Prop :=
  ∀ n h, dictGet st.registry n = some h →
    match h with
    | Handle.conc c => dictGet st.last_conc n = some c
    | Handle.prox pid =>
      ∃ p, st.proxies[pid]? = some p ∧ p.registry_name = some n ∧
        p.has_getter = true ∧
        ∃ c, p.target_logger = Handle.conc c ∧
          dictGet st.last_conc n = some c

/-- Invariant of the cleaner guard: at most one sweeper object exists, none
exists before the `_cleaner_started` flag is set, and every sweeper the
factory made is running, owns exactly one started worker thread, and targets
the default log path. -/
def CleanInv (st : FactoryState) : Prop :=
  st.cleaners.length ≤ 1 ∧
  (st.cleaner_started = false → st.cleaners = []) ∧
  ∀ c ∈ st.cleaners,
    c.is_running = true ∧ c.thread_started = true ∧ c.dir = defaultLogPath

/-- Decidable well-formedness of the registry: every proxy entry names a proxy
object that exists. This is the part of `RegInv` a concrete state can check by
evaluation. -/
def proxIdsOk (st : FactoryState) : Bool :=
  st.registry.all (fun e =>
    match e.2 with
    | Handle.conc _ => true
    | Handle.prox pid => decide (pid < st.proxies.length))

/-- The concrete handle an emit through the registry entry of `n` reaches:
the entry itself when it is concrete, or the cached target of the registered
proxy (the one unwrap level performed by `_get_current_logger`). -/
def resolvesToConc (st : FactoryState) (n : String) : Option Nat :=
  match dictGet st.registry n with
  | some (Handle.conc c) => some c
  | some (Handle.prox pid) =>
    match st.proxies[pid]? with
    | some q =>
      match q.target_logger with
      | Handle.conc c => some c
      | Handle.prox _ => none
    | none => none
  | none => none

/-- The module state after `create_logger("svc", force_new_instance=False)`
runs once from a fresh module: the concrete handle 0 is registered. -/
def idemSt : FactoryState :=
  { registry := [("svc", Handle.conc 0)], proxies := [], next_conc := 1,
    cleaner_started := false, cleaners := [], listeners := [], events := [],
    invoked := [], warnings_log := [], last_conc := [("svc", 0)] }

/-- A module state holding one proxy-mode handle named `a`: the registry entry
is the proxy object 0, whose cached target is the concrete handle 0. -/
def proxSt : FactoryState :=
  { registry := [("a", Handle.prox 0)],
    proxies := [{ target_logger := Handle.conc 0, registry_name := some "a",
                  has_getter := true }],
    next_conc := 1, cleaner_started := false, cleaners := [], listeners := [],
    events := [], invoked := [], warnings_log := [], last_conc := [("a", 0)] }

/-- A log file whose creation time is ancient but whose last-modified time is
the present instant (for example a long-lived file the writer just appended
to, on a platform where getctime reports the creation time). -/
def freshMtimeFile : LogFile :=
  { name := "app.log", is_file := true, exists_now := true, ctime := 0,
    mtime := 8640000, removable := true }

/-- A plainly expired log file whose deletion succeeds. -/
def oldLogFile : LogFile :=
  { name := "old.log", is_file := true, exists_now := true, ctime := 0,
    mtime := 0, removable := true }

/-- A recent log file (both timestamps current). -/
def newLogFile : LogFile :=
  { name := "new.log", is_file := true, exists_now := true, ctime := 8640000,
    mtime := 8640000, removable := true }

/-- An expired log file whose deletion fails (for example a permission
error). -/
def stuckLogFile : LogFile :=
  { name := "stuck.log", is_file := true, exists_now := true, ctime := 0,
    mtime := 0, removable := false }

/-! Basic lemmas about the dictionary and list operations of the model. -/

theorem dictGet_dictSet_self {α : Type} (m : List (String × α)) (k : String)
    (v : α) : dictGet (dictSet m k v) k = some v := by
  induction m with
  | nil => simp [dictGet, dictSet]
  | cons hd tl ih =>
    by_cases h : hd.1 = k
    · simp [dictGet, dictSet, h]
    · simpa [dictGet, dictSet, h] using ih

theorem dictGet_dictSet_ne {α : Type} (m : List (String × α)) (k k' : String)
    (v : α) (h : k' ≠ k) : dictGet (dictSet m k v) k' = dictGet m k' := by
  have hne : ¬ k = k' := fun hh => h hh.symm
  induction m with
  | nil => simp [dictGet, dictSet, hne]
  | cons hd tl ih =>
    obtain ⟨k0, v0⟩ := hd
    by_cases hk : k0 = k
    · subst hk
      simp [dictGet, dictSet, hne]
    · by_cases hk' : k0 = k'
      · simp [dictGet, dictSet, hk, hk', h]
      · simpa [dictGet, dictSet, hk, hk'] using ih

theorem dictGet_dictPop_self {α : Type} (m : List (String × α)) (k : String) :
    dictGet (dictPop m k) k = none := by
  induction m with
  | nil => simp [dictGet, dictPop]
  | cons hd tl ih =>
    obtain ⟨k0, v0⟩ := hd
    by_cases h : k0 = k
    · simpa [dictPop, h] using ih
    · simpa [dictPop, dictGet, h] using ih

theorem dictGet_dictPop_ne {α : Type} (m : List (String × α)) (k k' : String)
    (h : k' ≠ k) : dictGet (dictPop m k) k' = dictGet m k' := by
  induction m with
  | nil => simp [dictPop]
  | cons hd tl ih =>
    obtain ⟨k0, v0⟩ := hd
    by_cases hk : k0 = k
    · subst hk
      have hne : ¬ k0 = k' := fun hh => h hh.symm
      simpa [dictPop, dictGet, hne] using ih
    · by_cases hk' : k0 = k'
      · simp [dictPop, dictGet, hk, hk', h]
      · simpa [dictPop, dictGet, hk, hk'] using ih

theorem dictGet_mem {α : Type} (m : List (String × α)) (k : String) (v : α)
    (h : dictGet m k = some v) : (k, v) ∈ m := by
  induction m with
  | nil => simp [dictGet] at h
  | cons hd tl ih =>
    obtain ⟨k0, v0⟩ := hd
    simp only [dictGet] at h
    by_cases hk : k0 = k
    · subst hk
      rw [if_pos rfl] at h
      obtain rfl : v0 = v := by injection h
      exact List.mem_cons_self _ _
    · rw [if_neg hk] at h
      exact List.mem_cons_of_mem _ (ih h)

theorem getElem?_append_one {α : Type} (l : List α) (x : α) (i : Nat) (p : α)
    (h : l[i]? = some p) : (l ++ [x])[i]? = some p := by
  induction l generalizing i with
  | nil => simp at h
  | cons hd tl ih =>
    cases i with
    | zero => simpa using h
    | succ j =>
      simp only [List.cons_append, List.getElem?_cons_succ] at h ⊢
      exact ih j h

theorem getElem?_append_length {α : Type} (l : List α) (x : α) :
    (l ++ [x])[l.length]? = some x := by
  induction l with
  | nil => simp
  | cons hd tl ih => simp

theorem setProxyTarget_get_ne (ps : List ProxyState) (i j : Nat) (h : Handle)
    (hij : j ≠ i) : (setProxyTarget ps i h)[j]? = ps[j]? := by
  induction ps generalizing i j with
  | nil => simp [setProxyTarget]
  | cons hd tl ih =>
    cases i with
    | zero =>
      cases j with
      | zero => exact absurd rfl hij
      | succ j' => simp [setProxyTarget]
    | succ i' =>
      cases j with
      | zero => simp [setProxyTarget]
      | succ j' =>
        simp only [setProxyTarget, List.getElem?_cons_succ]
        exact ih i' j' (fun hh => hij (by rw [hh]))

theorem setProxyTarget_get_self (ps : List ProxyState) (i : Nat) (h : Handle)
    (p : ProxyState) (hp : ps[i]? = some p) :
    (setProxyTarget ps i h)[i]? = some { p with target_logger := h } := by
  induction ps generalizing i with
  | nil => simp at hp
  | cons hd tl ih =>
    cases i with
    | zero =>
      simp only [List.getElem?_cons_zero, Option.some.injEq] at hp
      subst hp
      simp [setProxyTarget]
    | succ i' =>
      simp only [List.getElem?_cons_succ] at hp
      simpa [setProxyTarget] using ih i' hp

theorem cleanerStartAt_of_running (cs : List LoggerClear) (i : Nat)
    (h : ∀ c ∈ cs, c.is_running = true) : cleanerStartAt cs i = cs := by
  induction cs generalizing i with
  | nil => simp [cleanerStartAt]
  | cons hd tl ih =>
    cases i with
    | zero =>
      have hr : hd.is_running = true := h hd (by simp)
      simp [cleanerStartAt, LoggerClear.start, hr]
    | succ i' =>
      simp only [cleanerStartAt, List.cons.injEq, true_and]
      exact ih i' (fun c hc => h c (List.mem_cons_of_mem _ hc))

/-! The registry coherence invariant behind the no-stale-target property. -/

theorem maybeStartCleaner_registry (st : FactoryState) (b : Bool) :
    (maybeStartCleaner st b).registry = st.registry := by
  unfold maybeStartCleaner
  split <;> rfl

theorem maybeStartCleaner_proxies (st : FactoryState) (b : Bool) :
    (maybeStartCleaner st b).proxies = st.proxies := by
  unfold maybeStartCleaner
  split <;> rfl

theorem maybeStartCleaner_last_conc (st : FactoryState) (b : Bool) :
    (maybeStartCleaner st b).last_conc = st.last_conc := by
  unfold maybeStartCleaner
  split <;> rfl

theorem maybeStartCleaner_next_conc (st : FactoryState) (b : Bool) :
    (maybeStartCleaner st b).next_conc = st.next_conc := by
  unfold maybeStartCleaner
  split <;> rfl

theorem maybeStartCleaner_events (st : FactoryState) (b : Bool) :
    (maybeStartCleaner st b).events = st.events := by
  unfold maybeStartCleaner
  split <;> rfl

theorem maybeStartCleaner_invoked (st : FactoryState) (b : Bool) :
    (maybeStartCleaner st b).invoked = st.invoked := by
  unfold maybeStartCleaner
  split <;> rfl

theorem regInv_build (st : FactoryState) (nm preset : String)
    (uP sC : Bool) (hInv : RegInv st) :
    RegInv (createLoggerBuild st nm preset uP sC).2 := by
  cases hpc : get_preset_config preset with
  | error e =>
    simpa only [createLoggerBuild, hpc] using hInv
  | ok cfg =>
    cases uP with
    | true =>
      intro n' h' hget
      simp only [createLoggerBuild, hpc, maybeStartCleaner_registry,
        maybeStartCleaner_proxies, maybeStartCleaner_last_conc,
        maybeStartCleaner_next_conc] at hget ⊢
      by_cases hn : n' = nm
      · subst hn
        rw [dictGet_dictSet_self] at hget
        obtain rfl : h' = Handle.prox st.proxies.length := by
          injection hget with h0
          exact h0.symm
        refine ⟨_, getElem?_append_length st.proxies _, rfl, rfl,
          st.next_conc, rfl, ?_⟩
        exact dictGet_dictSet_self _ _ _
      · rw [dictGet_dictSet_ne _ _ _ _ hn] at hget
        have hold := hInv n' h' hget
        cases h' with
        | conc c =>
          simpa only [dictGet_dictSet_ne _ _ _ _ hn] using hold
        | prox q =>
          obtain ⟨p, hp, hname, hget', c, htgt, hlast⟩ := hold
          exact ⟨p, getElem?_append_one _ _ _ _ hp, hname, hget', c, htgt,
            by rw [dictGet_dictSet_ne _ _ _ _ hn]; exact hlast⟩
    | false =>
      intro n' h' hget
      simp only [createLoggerBuild, hpc, maybeStartCleaner_registry,
        maybeStartCleaner_proxies, maybeStartCleaner_last_conc,
        maybeStartCleaner_next_conc] at hget ⊢
      by_cases hn : n' = nm
      · subst hn
        rw [dictGet_dictSet_self] at hget
        obtain rfl : h' = Handle.conc st.next_conc := by
          injection hget with h0
          exact h0.symm
        exact dictGet_dictSet_self _ _ _
      · rw [dictGet_dictSet_ne _ _ _ _ hn] at hget
        have hold := hInv n' h' hget
        cases h' with
        | conc c =>
          simpa only [dictGet_dictSet_ne _ _ _ _ hn] using hold
        | prox q =>
          obtain ⟨p, hp, hname, hget', c, htgt, hlast⟩ := hold
          exact ⟨p, hp, hname, hget', c, htgt,
            by rw [dictGet_dictSet_ne _ _ _ _ hn]; exact hlast⟩

theorem regInv_init : RegInv initState := by
  intro n h hget
  simp [initState, dictGet] at hget

theorem create_logger_reuse (st : FactoryState) (nm : String)
    (lp : Option String) (preset : String)
    (uP sC : Bool) (h : Handle) (hl : dictGet st.registry nm = some h) :
    create_logger st nm lp preset false uP sC = (Except.ok h, st) := by
  simp only [create_logger, hl]

theorem create_logger_miss (st : FactoryState) (nm : String)
    (lp : Option String) (preset : String)
    (uP sC : Bool) (hl : dictGet st.registry nm = none) :
    create_logger st nm lp preset false uP sC =
      createLoggerBuild st nm preset uP sC := by
  simp only [create_logger, hl]

theorem create_logger_force (st : FactoryState) (nm : String)
    (lp : Option String) (preset : String)
    (uP sC : Bool) :
    create_logger st nm lp preset true uP sC =
      createLoggerBuild st nm preset uP sC := rfl

theorem reinit_logger_none (st : FactoryState) (nm : String)
    (lp : Option String) (preset : String)
    (uP sC : Bool) (hl : dictGet st.registry nm = none) :
    reinit_logger st nm lp preset uP sC =
      (Except.ok none,
       { st with warnings_log := st.warnings_log ++ [reinitWarning nm] }) := by
  simp only [reinit_logger, hl]

theorem reinit_logger_conc_snd (st : FactoryState) (nm : String)
    (lp : Option String) (preset : String)
    (uP sC : Bool) (c : Nat)
    (hl : dictGet st.registry nm = some (Handle.conc c)) :
    (reinit_logger st nm lp preset uP sC).2 =
      (create_logger st nm lp preset true uP sC).2 := by
  simp only [reinit_logger, hl]
  cases hc : create_logger st nm lp preset true uP sC with
  | mk r st2 => cases r <;> rfl

theorem regInv_create (st : FactoryState) (nm : String)
    (lp : Option String) (preset : String)
    (fN uP sC : Bool) (hInv : RegInv st) :
    RegInv (create_logger st nm lp preset fN uP sC).2 := by
  cases fN with
  | true =>
    rw [create_logger_force]
    exact regInv_build st nm preset uP sC hInv
  | false =>
    cases hl : dictGet st.registry nm with
    | some h =>
      rw [create_logger_reuse st nm lp preset uP sC h hl]
      exact hInv
    | none =>
      rw [create_logger_miss st nm lp preset uP sC hl]
      exact regInv_build st nm preset uP sC hInv

theorem regInv_reinit (st : FactoryState) (nm : String)
    (lp : Option String) (preset : String) (uP sC : Bool)
    (hInv : RegInv st) : RegInv (reinit_logger st nm lp preset uP sC).2 := by
  cases hl : dictGet st.registry nm with
  | none =>
    rw [reinit_logger_none st nm lp preset uP sC hl]
    intro n' h' hget
    exact hInv n' h' hget
  | some h =>
    cases h with
    | conc c =>
      rw [reinit_logger_conc_snd st nm lp preset uP sC c hl]
      exact regInv_create st nm lp preset true uP sC hInv
    | prox pid =>
      obtain ⟨p, hp, hname, hhg, c0, htgt, hlast⟩ :=
        hInv nm (Handle.prox pid) hl
      cases hpc : get_preset_config preset with
      | error e =>
        intro n' h' hget
        simp only [reinit_logger, hl, create_logger, createLoggerBuild,
          hpc] at hget ⊢
        by_cases hn : n' = nm
        · subst hn
          rw [dictGet_dictSet_self] at hget
          obtain rfl : h' = Handle.prox pid := by
            injection hget with h0
            exact h0.symm
          exact ⟨p, hp, hname, hhg, c0, htgt, hlast⟩
        · rw [dictGet_dictSet_ne _ _ _ _ hn, dictGet_dictPop_ne _ _ _ hn]
            at hget
          exact hInv n' h' hget
      | ok cfg =>
        intro n' h' hget
        simp only [reinit_logger, hl, create_logger, createLoggerBuild, hpc,
          maybeStartCleaner_registry, maybeStartCleaner_proxies,
          maybeStartCleaner_last_conc, maybeStartCleaner_next_conc]
          at hget ⊢
        by_cases hn : n' = nm
        · subst hn
          rw [dictGet_dictSet_self] at hget
          obtain rfl : h' = Handle.prox pid := by
            injection hget with h0
            exact h0.symm
          refine ⟨{ p with target_logger := Handle.conc st.next_conc },
            setProxyTarget_get_self _ _ _ _ hp, hname, hhg,
            st.next_conc, rfl, ?_⟩
          exact dictGet_dictSet_self _ _ _
        · rw [dictGet_dictSet_ne _ _ _ _ hn, dictGet_dictSet_ne _ _ _ _ hn,
            dictGet_dictPop_ne _ _ _ hn] at hget
          have hold := hInv n' h' hget
          cases h' with
          | conc c =>
            rw [dictGet_dictSet_ne _ _ _ _ hn]
            exact hold
          | prox q =>
            obtain ⟨pq, hpq, hnameq, hhgq, cq, htgtq, hlastq⟩ := hold
            have hqpid : q ≠ pid := by
              intro hq
              subst hq
              rw [hp] at hpq
              obtain rfl : pq = p := by
                injection hpq with h0
                exact h0.symm
              rw [hname] at hnameq
              injection hnameq with h0
              exact hn h0.symm
            refine ⟨pq, ?_, hnameq, hhgq, cq, htgtq, ?_⟩
            · rw [setProxyTarget_get_ne _ _ _ _ hqpid]
              exact hpq
            · rw [dictGet_dictSet_ne _ _ _ _ hn]
              exact hlastq

theorem regInv_applyOp (st : FactoryState) (op : Op) (hInv : RegInv st) :
    RegInv (applyOp st op) := by
  cases op with
  | create n lp p fN uP sC => exact regInv_create st n lp p fN uP sC hInv
  | reinit n lp p uP sC => exact regInv_reinit st n lp p uP sC hInv
  | startAgain i =>
    intro n' h' hget
    exact hInv n' h' hget
  | subscribeOp e cb =>
    intro n' h' hget
    exact hInv n' h' hget

theorem regInv_runOps (ops : List Op) : RegInv (runOps ops) := by
  have hgen : ∀ (l : List Op) (st : FactoryState), RegInv st →
      RegInv (l.foldl applyOp st) := by
    intro l
    induction l with
    | nil => intro st h; exact h
    | cons hd tl ih =>
      intro st h
      exact ih (applyOp st hd) (regInv_applyOp st hd h)
  exact hgen ops initState regInv_init

/-! The process-wide sweeper invariant. -/

theorem cleanInv_init : CleanInv initState := by
  refine ⟨by simp [initState], fun _ => rfl, ?_⟩
  intro c hc
  simp [initState] at hc

theorem cleanInv_maybeStart (st : FactoryState) (b : Bool)
    (h : CleanInv st) : CleanInv (maybeStartCleaner st b) := by
  obtain ⟨h1, h2, h3⟩ := h
  unfold maybeStartCleaner
  by_cases hcond : (b && !st.cleaner_started) = true
  · rw [if_pos hcond]
    have hflag : st.cleaner_started = false := by
      cases hflag : st.cleaner_started
      · rfl
      · rw [hflag] at hcond
        simp at hcond
    have hempty : st.cleaners = [] := h2 hflag
    refine ⟨?_, ?_, ?_⟩
    · simp [hempty]
    · intro hh
      exact absurd hh (by simp)
    · intro c hc
      simp [hempty] at hc
      subst hc
      exact ⟨rfl, rfl, rfl⟩
  · rw [if_neg hcond]
    exact ⟨h1, h2, h3⟩

theorem cleanInv_build (st : FactoryState) (nm preset : String)
    (uP sC : Bool) (h : CleanInv st) :
    CleanInv (createLoggerBuild st nm preset uP sC).2 := by
  cases hpc : get_preset_config preset with
  | error e =>
    simp only [createLoggerBuild, hpc]
    exact h
  | ok cfg =>
    cases uP with
    | true =>
      simp only [createLoggerBuild, hpc]
      exact cleanInv_maybeStart { st with next_conc := st.next_conc + 1 } sC h
    | false =>
      simp only [createLoggerBuild, hpc]
      exact cleanInv_maybeStart { st with next_conc := st.next_conc + 1 } sC h

theorem cleanInv_create (st : FactoryState) (nm : String)
    (lp : Option String) (preset : String)
    (fN uP sC : Bool) (h : CleanInv st) :
    CleanInv (create_logger st nm lp preset fN uP sC).2 := by
  cases fN with
  | true =>
    rw [create_logger_force]
    exact cleanInv_build st nm preset uP sC h
  | false =>
    cases hl : dictGet st.registry nm with
    | some hh =>
      rw [create_logger_reuse st nm lp preset uP sC hh hl]
      exact h
    | none =>
      rw [create_logger_miss st nm lp preset uP sC hl]
      exact cleanInv_build st nm preset uP sC h

theorem cleanInv_reinit (st : FactoryState) (nm : String)
    (lp : Option String) (preset : String)
    (uP sC : Bool) (h : CleanInv st) :
    CleanInv (reinit_logger st nm lp preset uP sC).2 := by
  cases hl : dictGet st.registry nm with
  | none =>
    rw [reinit_logger_none st nm lp preset uP sC hl]
    exact h
  | some hh =>
    cases hh with
    | conc c =>
      rw [reinit_logger_conc_snd st nm lp preset uP sC c hl]
      exact cleanInv_create st nm lp preset true uP sC h
    | prox pid =>
      have hb := cleanInv_create
        { st with registry := dictPop st.registry nm } nm lp preset true false sC h
      simp only [reinit_logger, hl]
      cases hc : create_logger { st with registry := dictPop st.registry nm }
          nm lp preset true false sC with
      | mk r st2 =>
        rw [hc] at hb
        cases r with
        | ok newH => exact hb
        | error e => exact hb

theorem cleanInv_applyOp (st : FactoryState) (op : Op) (h : CleanInv st) :
    CleanInv (applyOp st op) := by
  cases op with
  | create n lp p fN uP sC => exact cleanInv_create st n lp p fN uP sC h
  | reinit n lp p uP sC => exact cleanInv_reinit st n lp p uP sC h
  | startAgain i =>
    have hrun : ∀ c ∈ st.cleaners, c.is_running = true :=
      fun c hc => (h.2.2 c hc).1
    show CleanInv { st with cleaners := cleanerStartAt st.cleaners i }
    rw [cleanerStartAt_of_running st.cleaners i hrun]
    exact h
  | subscribeOp e cb => exact h

theorem cleanInv_runOps (ops : List Op) : CleanInv (runOps ops) := by
  have hgen : ∀ (l : List Op) (st : FactoryState), CleanInv st →
      CleanInv (l.foldl applyOp st) := by
    intro l
    induction l with
    | nil => intro st h; exact h
    | cons hd tl ih =>
      intro st h
      exact ih (applyOp st hd) (cleanInv_applyOp st hd h)
  exact hgen ops initState cleanInv_init

theorem runOps_append_one (ops : List Op) (op : Op) :
    runOps (ops ++ [op]) = applyOp (runOps ops) op := by
  simp [runOps, List.foldl_append]

theorem build_cleaners_started (st : FactoryState) (nm preset : String)
    (uP : Bool) (h : st.cleaner_started = true) :
    (createLoggerBuild st nm preset uP true).2.cleaners = st.cleaners := by
  cases hpc : get_preset_config preset with
  | error e => simp only [createLoggerBuild, hpc]
  | ok cfg =>
    cases uP <;> simp [createLoggerBuild, hpc, maybeStartCleaner, h]

theorem create_cleaners_started (st : FactoryState) (nm : String)
    (lp : Option String) (preset : String)
    (fN uP : Bool) (h : st.cleaner_started = true) :
    (create_logger st nm lp preset fN uP true).2.cleaners = st.cleaners := by
  cases fN with
  | true =>
    rw [create_logger_force]
    exact build_cleaners_started st nm preset uP h
  | false =>
    cases hl : dictGet st.registry nm with
    | some hh => rw [create_logger_reuse st nm lp preset uP true hh hl]
    | none =>
      rw [create_logger_miss st nm lp preset uP true hl]
      exact build_cleaners_started st nm preset uP h

/-! Lemmas on the failure and success shapes of handle creation. -/

theorem createBuild_error_state (st : FactoryState) (nm preset : String)
    (uP sC : Bool) (e : String) (st2 : FactoryState)
    (h : createLoggerBuild st nm preset uP sC = (Except.error e, st2)) :
    st2 = st := by
  cases hpc : get_preset_config preset with
  | error e0 =>
    simp only [createLoggerBuild, hpc] at h
    rw [Prod.mk.injEq] at h
    exact h.2.symm
  | ok cfg =>
    cases uP with
    | true =>
      simp only [createLoggerBuild, hpc] at h
      rw [Prod.mk.injEq] at h
      exact absurd h.1 (by simp)
    | false =>
      simp only [createLoggerBuild, hpc] at h
      rw [Prod.mk.injEq] at h
      exact absurd h.1 (by simp)

theorem create_error_state (st : FactoryState) (nm : String)
    (lp : Option String) (preset : String) (fN uP sC : Bool) (e : String)
    (st2 : FactoryState)
    (h : create_logger st nm lp preset fN uP sC = (Except.error e, st2)) :
    st2 = st := by
  cases fN with
  | true =>
    rw [create_logger_force] at h
    exact createBuild_error_state st nm preset uP sC e st2 h
  | false =>
    cases hl : dictGet st.registry nm with
    | some hh =>
      rw [create_logger_reuse st nm lp preset uP sC hh hl] at h
      rw [Prod.mk.injEq] at h
      exact absurd h.1 (by simp)
    | none =>
      rw [create_logger_miss st nm lp preset uP sC hl] at h
      exact createBuild_error_state st nm preset uP sC e st2 h

theorem createBuild_ok_lookup (st : FactoryState) (nm preset : String)
    (uP sC : Bool) (h : Handle) (st1 : FactoryState)
    (hc : createLoggerBuild st nm preset uP sC = (Except.ok h, st1)) :
    dictGet st1.registry nm = some h := by
  cases hpc : get_preset_config preset with
  | error e =>
    simp only [createLoggerBuild, hpc] at hc
    rw [Prod.mk.injEq] at hc
    exact absurd hc.1 (by simp)
  | ok cfg =>
    cases uP with
    | true =>
      simp only [createLoggerBuild, hpc, maybeStartCleaner_registry,
        maybeStartCleaner_proxies, maybeStartCleaner_last_conc,
        maybeStartCleaner_next_conc] at hc
      rw [Prod.mk.injEq] at hc
      obtain ⟨h1, h2⟩ := hc
      obtain rfl : Handle.prox st.proxies.length = h := by injection h1
      subst h2
      exact dictGet_dictSet_self _ _ _
    | false =>
      simp only [createLoggerBuild, hpc, maybeStartCleaner_registry,
        maybeStartCleaner_proxies, maybeStartCleaner_last_conc,
        maybeStartCleaner_next_conc] at hc
      rw [Prod.mk.injEq] at hc
      obtain ⟨h1, h2⟩ := hc
      obtain rfl : Handle.conc st.next_conc = h := by injection h1
      subst h2
      exact dictGet_dictSet_self _ _ _

theorem create_ok_lookup (st : FactoryState) (nm : String)
    (lp : Option String) (preset : String) (uP sC : Bool) (h : Handle)
    (st1 : FactoryState)
    (hc : create_logger st nm lp preset false uP sC = (Except.ok h, st1)) :
    dictGet st1.registry nm = some h := by
  cases hl : dictGet st.registry nm with
  | some hh =>
    rw [create_logger_reuse st nm lp preset uP sC hh hl] at hc
    rw [Prod.mk.injEq] at hc
    obtain ⟨h1, h2⟩ := hc
    obtain rfl : hh = h := by injection h1
    subst h2
    exact hl
  | none =>
    rw [create_logger_miss st nm lp preset uP sC hl] at hc
    exact createBuild_ok_lookup st nm preset uP sC h st1 hc

/-! Lemmas on the sweeper pass. -/

theorem sweepFile_fst (now : Int) (r : String) (f : LogFile) :
    (sweepFile now r f).1 = shouldDelete now r f := by
  cases hs : startsWithDot f.name <;> cases he : f.exists_now <;>
    cases hf : f.is_file <;> cases hx : isExpiredDays now r f <;>
    cases hr : f.removable <;>
    simp [sweepFile, shouldDelete, hs, he, hf, hx, hr]

theorem mem_sweep_logs (now : Int) (r : String) (files : List LogFile)
    (f : LogFile) (hf : f ∈ files) (m : String)
    (hm : m ∈ (sweepFile now r f).2) :
    m ∈ files.foldr (fun g acc => (sweepFile now r g).2 ++ acc) [] := by
  induction files with
  | nil => cases hf
  | cons hd tl ih =>
    rcases List.mem_cons.mp hf with hcase | hcase
    · subst hcase
      exact List.mem_append_left _ hm
    · exact List.mem_append_right _ (ih hcase)

/-! Claim theorems. -/

/-- C3: get-or-create idempotence — when a `create_logger` call with
`force_new_instance=False` returns a handle, calling `create_logger` again
with `force_new_instance=False` returns the very same handle object and
leaves the whole module state, in particular the registry entry for the
name, unchanged. -/
theorem create_logger_idempotent (st : FactoryState) (nm : String)
    (lp : Option String) (preset : String) (uP sC : Bool) (h : Handle)
    (st1 : FactoryState)
    (h1 : create_logger st nm lp preset false uP sC = (Except.ok h, st1)) :
    create_logger st1 nm lp preset false uP sC = (Except.ok h, st1) :=
  create_logger_reuse st1 nm lp preset uP sC h
    (create_ok_lookup st nm lp preset uP sC h st1 h1)

theorem create_logger_idempotent_witness :
    create_logger idemSt "svc" none "detailed" false false false =
      (Except.ok (Handle.conc 0), idemSt) :=
  create_logger_idempotent initState "svc" none "detailed" false false
    (Handle.conc 0) idemSt rfl

/-- C7: destination-marker precedence — for every record and for the (only,
configuration-free) filters the code builds, a record explicitly marked
console-only is rejected by the file filter, and a record explicitly marked
file-only is rejected by the console filter; the proxy's `console_*` and
`file_*` emits go through `bind(...)` and are therefore rejected by the
opposite sink's filter. -/
theorem destination_marker_precedence (r : LogRecord) :
    (r.to_console_only = true → file_filter r = false) ∧
    file_filter (bindConsoleOnly r) = false ∧
    (r.to_log_file_only = true → console_filter r = false) ∧
    console_filter (bindFileOnly r) = false := by
  refine ⟨?_, ?_, ?_, ?_⟩
  · intro h
    simp [file_filter, h]
  · simp [file_filter, bindConsoleOnly]
  · intro h
    simp [console_filter, h]
  · simp [console_filter, bindFileOnly]

theorem destination_marker_precedence_witness :
    file_filter { to_console_only := true, to_log_file_only := false,
                  tags := [] } = false ∧
    console_filter { to_console_only := false, to_log_file_only := true,
                     tags := [] } = false :=
  ⟨(destination_marker_precedence _).1 rfl,
   (destination_marker_precedence _).2.2.1 rfl⟩

/-- C8: reinit of an unregistered name returns absent (`None`) after issuing
a `UserWarning`, raises nothing, and leaves the registry unchanged. -/
theorem reinit_unknown_name (st : FactoryState) (nm : String)
    (lp : Option String) (preset : String) (uP sC : Bool)
    (hl : dictGet st.registry nm = none) :
    (reinit_logger st nm lp preset uP sC).1 = Except.ok none ∧
    (reinit_logger st nm lp preset uP sC).2.registry = st.registry ∧
    (reinit_logger st nm lp preset uP sC).2.warnings_log =
      st.warnings_log ++ [reinitWarning nm] := by
  rw [reinit_logger_none st nm lp preset uP sC hl]
  exact ⟨rfl, rfl, rfl⟩

theorem reinit_unknown_name_witness :
    (reinit_logger initState "ghost" none "detailed" false false).1 =
      Except.ok none ∧
    (reinit_logger initState "ghost" none "detailed" false false).2.registry =
      initState.registry ∧
    (reinit_logger initState "ghost" none "detailed" false
        false).2.warnings_log =
      initState.warnings_log ++ [reinitWarning "ghost"] :=
  reinit_unknown_name initState "ghost" none "detailed" false false rfl

/-- C9: an unknown preset name is a hard error at creation time: the preset
lookup raises `ValueError` and `create_logger` propagates it before touching
any state, never substituting a default preset on this path. -/
theorem unknown_preset_hard_error (preset : String)
    (hp : dictGet PRESET_CONFIGS preset = none) (st : FactoryState)
    (nm : String) (lp : Option String) (fN uP sC : Bool)
    (hn : dictGet st.registry nm = none) :
    get_preset_config preset =
      Except.error ("Unknown preset type: " ++ preset) ∧
    create_logger st nm lp preset fN uP sC =
      (Except.error ("Unknown preset type: " ++ preset), st) := by
  have he : get_preset_config preset =
      Except.error ("Unknown preset type: " ++ preset) := by
    simp only [get_preset_config, hp]
  refine ⟨he, ?_⟩
  cases fN with
  | true =>
    rw [create_logger_force]
    simp only [createLoggerBuild, he]
  | false =>
    rw [create_logger_miss st nm lp preset uP sC hn]
    simp only [createLoggerBuild, he]

theorem unknown_preset_hard_error_witness :
    get_preset_config "banana" =
      Except.error ("Unknown preset type: " ++ "banana") ∧
    create_logger initState "svc" none "banana" true false false =
      (Except.error ("Unknown preset type: " ++ "banana"), initState) :=
  unknown_preset_hard_error "banana" rfl initState "svc" none true false
    false rfl

/-- C10: reinit atomicity on error — when the registry entry for a name is a
proxy and building the replacement handle raises, the popped entry is
restored before the exception propagates: the registry maps the name to the
same proxy object afterwards, and no proxy object was mutated. -/
theorem reinit_restores_on_error (st : FactoryState) (nm : String)
    (lp : Option String) (preset : String) (uP sC : Bool) (pid : Nat)
    (hreg : dictGet st.registry nm = some (Handle.prox pid)) (e : String)
    (st' : FactoryState)
    (hfail : reinit_logger st nm lp preset uP sC = (Except.error e, st')) :
    dictGet st'.registry nm = some (Handle.prox pid) ∧
    st'.proxies = st.proxies := by
  simp only [reinit_logger, hreg] at hfail
  cases hc : create_logger { st with registry := dictPop st.registry nm }
      nm lp preset true false sC with
  | mk r st2 =>
    rw [hc] at hfail
    cases r with
    | ok newH =>
      rw [Prod.mk.injEq] at hfail
      exact absurd hfail.1 (by simp)
    | error e2 =>
      rw [Prod.mk.injEq] at hfail
      obtain ⟨he, hst⟩ := hfail
      have hst2 : st2 = { st with registry := dictPop st.registry nm } :=
        create_error_state _ nm lp preset true false sC e2 st2 hc
      subst hst
      constructor
      · exact dictGet_dictSet_self _ _ _
      · rw [hst2]

theorem reinit_restores_on_error_witness :
    dictGet proxSt.registry "a" = some (Handle.prox 0) ∧
    proxSt.proxies = proxSt.proxies :=
  reinit_restores_on_error proxSt "a" none "nope" false false 0 rfl
    ("Unknown preset type: " ++ "nope") proxSt rfl

/-- C6: the tag-filter claim evaluated against the code at its failing
inputs. The destination filters built by `create_destination_filters`
consult only the explicit `to_console_only` / `to_log_file_only` markers, so
a record carrying none of a configured console_only tag set still passes the
console filter, a record carrying a console_exclude tag still passes the
console filter, and a record carrying a file_exclude tag still passes the
file filter; moreover `logger_start` always forwards the key
`tag_filter_config` to `init_logger`, whose signature has no such parameter
(a `TypeError` in Python the moment a tag filter is configured). -/
theorem tag_filter_unimplemented :
    console_filter { to_console_only := false, to_log_file_only := false,
                     tags := ["general"] } = true ∧
    console_filter { to_console_only := false, to_log_file_only := false,
                     tags := ["verbose"] } = true ∧
    file_filter { to_console_only := false, to_log_file_only := false,
                  tags := ["temporary"] } = true ∧
    "tag_filter_config" ∈ loggerStartConfigKeys ∧
    "tag_filter_config" ∉ initLoggerAcceptedParams := by
  refine ⟨rfl, rfl, rfl, by decide, by decide⟩

/-- C5 counterexample: a file whose last-modified time is the present instant
is deleted anyway, because `__clean_old_log_loop` compares
`os.path.getctime` (creation time) with the cutoff, not the last-modified
time: at this input the file's mtime is strictly newer than the cutoff, yet
the sweep removes it. -/
theorem retention_mtime_counterexample :
    (sweepFile 8640000 "20" freshMtimeFile).1 = true ∧
    8640000 - 20 * secondsPerDay < freshMtimeFile.mtime ∧
    (clean_old_log_loop true 8640000 "20" [freshMtimeFile]).1 = [] := by
  refine ⟨by decide, by decide, by decide⟩

/-- C5 (amended): the sweeper thread body performs a single pass (there is no
repeat loop and no sleep in the source): it removes exactly the non-hidden,
still-existing regular files whose creation time is older than now minus
`int(log_retention)` days and whose removal succeeds; a file that is not
expired by creation time always survives; a failed removal leaves the file
in place and logs a warning, and never aborts the pass. -/
theorem retention_single_pass (now : Int) (retention : String)
    (files : List LogFile) :
    (clean_old_log_loop true now retention files).1 =
      files.filter (fun f => !shouldDelete now retention f) ∧
    (∀ f ∈ files, isExpiredDays now retention f = false →
      f ∈ (clean_old_log_loop true now retention files).1) ∧
    (∀ f ∈ files, f.removable = false →
      f ∈ (clean_old_log_loop true now retention files).1) ∧
    (∀ f ∈ files, startsWithDot f.name = false → f.exists_now = true →
      f.is_file = true → isExpiredDays now retention f = true →
      f.removable = false →
      ("Logger: Cannot remove log file " ++ f.name) ∈
        (clean_old_log_loop true now retention files).2) := by
  refine ⟨?_, ?_, ?_, ?_⟩
  · simp only [clean_old_log_loop, Bool.not_true, Bool.false_eq_true,
      if_false]
    exact List.filter_congr (fun f _ => by rw [sweepFile_fst])
  · intro f hf hx
    simp only [clean_old_log_loop, Bool.not_true, Bool.false_eq_true,
      if_false]
    rw [List.mem_filter]
    refine ⟨hf, ?_⟩
    rw [sweepFile_fst]
    simp [shouldDelete, hx]
  · intro f hf hr
    simp only [clean_old_log_loop, Bool.not_true, Bool.false_eq_true,
      if_false]
    rw [List.mem_filter]
    refine ⟨hf, ?_⟩
    rw [sweepFile_fst]
    simp [shouldDelete, hr]
  · intro f hf h1 h2 h3 h4 h5
    simp only [clean_old_log_loop, Bool.not_true, Bool.false_eq_true,
      if_false]
    refine mem_sweep_logs now retention files f hf _ ?_
    simp [sweepFile, h1, h2, h3, h4, h5]

theorem retention_single_pass_witness :
    newLogFile ∈ (clean_old_log_loop true 8640000 "20"
      [oldLogFile, newLogFile, stuckLogFile]).1 ∧
    ("Logger: Cannot remove log file " ++ stuckLogFile.name) ∈
      (clean_old_log_loop true 8640000 "20"
        [oldLogFile, newLogFile, stuckLogFile]).2 :=
  ⟨(retention_single_pass 8640000 "20" _).2.1 newLogFile (by decide)
     (by decide),
   (retention_single_pass 8640000 "20" _).2.2.2 stuckLogFile (by decide)
     (by decide) (by decide) (by decide) (by decide) (by decide)⟩

/-- C4 counterexample: two `create_logger` calls with `start_cleaner=True`
for two distinct output directories start exactly one sweeper in total, and
that sweeper targets the default log path — no sweeper is running for either
handle's own output directory, refuting "the factory starts exactly one
sweeper for that handle's output directory unless one is already running for
that directory". -/
theorem sweeper_per_directory_counterexample :
    numWorkers (runOps [Op.create "a" (some "d1") "detailed" true false true,
        Op.create "b" (some "d2") "detailed" true false true]) "d2" = 0 ∧
    numWorkers (runOps [Op.create "a" (some "d1") "detailed" true false true,
        Op.create "b" (some "d2") "detailed" true false true]) "d1" = 0 ∧
    numWorkers (runOps [Op.create "a" (some "d1") "detailed" true false true,
        Op.create "b" (some "d2") "detailed" true false true])
      defaultLogPath = 1 ∧
    (runOps [Op.create "a" (some "d1") "detailed" true false true,
        Op.create "b" (some "d2") "detailed" true false true]).cleaners.length
      = 1 :=
  ⟨rfl, rfl, rfl, rfl⟩

/-- C4 (amended): the cleaner guard is process-wide, not per-directory: at
most one sweeper worker ever exists (so at most one per target directory),
calling `start()` again on a sweeper object spawns no second worker, and a
later `create_logger` call with `start_cleaner=True` is a no-op once the
global flag is set, whatever directory the handle uses. -/
theorem sweeper_process_wide_singleton (ops : List Op) :
    (∀ dir, numWorkers (runOps ops) dir ≤ 1) ∧
    (∀ i, (runOps (ops ++ [Op.startAgain i])).cleaners =
      (runOps ops).cleaners) ∧
    (∀ nm lp preset fN uP, (runOps ops).cleaner_started = true →
      (runOps (ops ++ [Op.create nm lp preset fN uP true])).cleaners =
        (runOps ops).cleaners) := by
  obtain ⟨h1, h2, h3⟩ := cleanInv_runOps ops
  refine ⟨?_, ?_, ?_⟩
  · intro dir
    exact le_trans (List.length_filter_le _ _) h1
  · intro i
    rw [runOps_append_one]
    exact cleanerStartAt_of_running _ i (fun c hc => (h3 c hc).1)
  · intro nm lp preset fN uP hstarted
    rw [runOps_append_one]
    exact create_cleaners_started _ nm lp preset fN uP hstarted

theorem sweeper_process_wide_singleton_witness :
    numWorkers (runOps [Op.create "a" (some "d1") "detailed" true false true])
      defaultLogPath ≤ 1 ∧
    (runOps ([Op.create "a" (some "d1") "detailed" true false true] ++
        [Op.create "b" (some "d2") "detailed" true false true])).cleaners =
      (runOps [Op.create "a" (some "d1") "detailed" true false
        true]).cleaners :=
  ⟨(sweeper_process_wide_singleton _).1 defaultLogPath,
   (sweeper_process_wide_singleton _).2.2 "b" (some "d2") "detailed" true
     false rfl⟩

set_option linter.unusedVariables false in
/-- C1: no-stale-target — in every state reachable by any sequence of
`create_logger` / `reinit_logger` / sweeper / subscription operations, every
proxy object bound to a currently registered name resolves
(`_get_current_logger`, evaluated at the moment of the forwarded call, with
one proxy-unwrap level) to a concrete handle, namely the concrete handle most
recently built and installed for that name — never a superseded one. -/
theorem no_stale_target (ops : List Op) (pid : Nat) (p : ProxyState)
    (n : String) (h : Handle)
    (hp : (runOps ops).proxies[pid]? = some p)
    (hn : p.registry_name = some n) (hg : p.has_getter = true)
    (hr : dictGet (runOps ops).registry n = some h) :
    ∃ c, getCurrentLogger (runOps ops) p = Handle.conc c ∧
      dictGet (runOps ops).last_conc n = some c := by
  have hold := regInv_runOps ops n h hr
  cases h with
  | conc c =>
    refine ⟨c, ?_, hold⟩
    simp [getCurrentLogger, hg, hn, hr]
  | prox q =>
    obtain ⟨pq, hpq, hname, hhg, c, htgt, hlast⟩ := hold
    refine ⟨c, ?_, hlast⟩
    simp [getCurrentLogger, hg, hn, hr, hpq, htgt]

theorem no_stale_target_witness :
    ∃ c, getCurrentLogger
        (runOps [Op.create "svc" none "detailed" true true false,
          Op.reinit "svc" none "simple" false false])
        { target_logger := Handle.conc 1, registry_name := some "svc",
          has_getter := true } = Handle.conc c ∧
      dictGet (runOps [Op.create "svc" none "detailed" true true false,
          Op.reinit "svc" none "simple" false false]).last_conc "svc" =
        some c :=
  no_stale_target [Op.create "svc" none "detailed" true true false,
      Op.reinit "svc" none "simple" false false] 0
    { target_logger := Handle.conc 1, registry_name := some "svc",
      has_getter := true } "svc" (Handle.prox 0) rfl rfl rfl rfl

/-- C2 counterexample: a subscriber to the event named "handle_updated" is
registered on the event bus, a proxy-mode handle is created, and a reinit of
that handle completes successfully — yet no event of any name has been
posted and no subscriber has been invoked, because `reinit_logger` never
calls `post_event`. -/
theorem reinit_publishes_no_event_counterexample :
    (reinit_logger (runOps [Op.subscribeOp "handle_updated" 0,
        Op.create "svc" none "detailed" true true false]) "svc" none "simple"
        false false).1 = Except.ok (some (Handle.prox 0)) ∧
    (reinit_logger (runOps [Op.subscribeOp "handle_updated" 0,
        Op.create "svc" none "detailed" true true false]) "svc" none "simple"
        false false).2.events = [] ∧
    (reinit_logger (runOps [Op.subscribeOp "handle_updated" 0,
        Op.create "svc" none "detailed" true true false]) "svc" none "simple"
        false false).2.invoked = [] ∧
    (runOps [Op.subscribeOp "handle_updated" 0,
        Op.create "svc" none "detailed" true true false]).listeners =
      [("handle_updated", 0)] :=
  ⟨rfl, rfl, rfl, rfl⟩

/-- C2 (amended): for every registered name and resolvable preset, a reinit
succeeds and builds a brand-new concrete handle — it consumes a fresh
allocation even though the name is registered (the reuse check is bypassed
via `force_new_instance=True`) and installs it as what emits through the
registry entry reach (directly, or as the updated target of the re-registered
proxy) — but it publishes no event on the event bus and invokes no
subscriber; proxies observe the replacement only by re-resolving through the
registry. -/
theorem reinit_fresh_handle_no_event (st : FactoryState) (nm : String)
    (lp : Option String) (preset : String) (uP sC : Bool) (h : Handle)
    (cfg : PresetConfig) (hreg : dictGet st.registry nm = some h)
    (hpc : get_preset_config preset = Except.ok cfg)
    (hwf : proxIdsOk st = true) :
    ∃ h' st', reinit_logger st nm lp preset uP sC =
        (Except.ok (some h'), st') ∧
      st'.next_conc = st.next_conc + 1 ∧
      dictGet st'.last_conc nm = some st.next_conc ∧
      resolvesToConc st' nm = some st.next_conc ∧
      st'.events = st.events ∧ st'.invoked = st.invoked := by
  cases h with
  | conc c =>
    cases uP with
    | false =>
      simp only [reinit_logger, hreg, create_logger, createLoggerBuild, hpc,
        maybeStartCleaner_registry, maybeStartCleaner_proxies,
        maybeStartCleaner_last_conc, maybeStartCleaner_next_conc,
        maybeStartCleaner_events, maybeStartCleaner_invoked]
      refine ⟨Handle.conc st.next_conc, _, rfl, ?_, ?_, ?_, ?_, ?_⟩
      · simp [maybeStartCleaner_next_conc]
      · exact dictGet_dictSet_self _ _ _
      · simp [resolvesToConc, dictGet_dictSet_self]
      · simp [maybeStartCleaner_events]
      · simp [maybeStartCleaner_invoked]
    | true =>
      simp only [reinit_logger, hreg, create_logger, createLoggerBuild, hpc,
        maybeStartCleaner_registry, maybeStartCleaner_proxies,
        maybeStartCleaner_last_conc, maybeStartCleaner_next_conc,
        maybeStartCleaner_events, maybeStartCleaner_invoked]
      refine ⟨Handle.prox st.proxies.length, _, rfl, ?_, ?_, ?_, ?_, ?_⟩
      · simp [maybeStartCleaner_next_conc]
      · exact dictGet_dictSet_self _ _ _
      · simp [resolvesToConc, dictGet_dictSet_self, getElem?_append_length]
      · simp [maybeStartCleaner_events]
      · simp [maybeStartCleaner_invoked]
  | prox pid =>
    have hmem := dictGet_mem _ _ _ hreg
    have hall := List.all_eq_true.mp hwf (nm, Handle.prox pid) hmem
    have hlt : pid < st.proxies.length := of_decide_eq_true hall
    obtain ⟨p0, hp0⟩ : ∃ p0, st.proxies[pid]? = some p0 :=
      ⟨st.proxies[pid], List.getElem?_eq_getElem hlt⟩
    simp only [reinit_logger, hreg, create_logger, createLoggerBuild, hpc,
      maybeStartCleaner_registry, maybeStartCleaner_proxies,
      maybeStartCleaner_last_conc, maybeStartCleaner_next_conc,
      maybeStartCleaner_events, maybeStartCleaner_invoked]
    refine ⟨Handle.prox pid, _, rfl, ?_, ?_, ?_, ?_, ?_⟩
    · simp [maybeStartCleaner_next_conc]
    · exact dictGet_dictSet_self _ _ _
    · simp only [resolvesToConc, dictGet_dictSet_self]
      rw [setProxyTarget_get_self st.proxies pid
        (Handle.conc st.next_conc) p0 hp0]
    · simp [maybeStartCleaner_events]
    · simp [maybeStartCleaner_invoked]

theorem reinit_fresh_handle_no_event_witness :
    ∃ h' st', reinit_logger proxSt "a" none "simple" false false =
        (Except.ok (some h'), st') ∧
      st'.next_conc = proxSt.next_conc + 1 ∧
      dictGet st'.last_conc "a" = some proxSt.next_conc ∧
      resolvesToConc st' "a" = some proxSt.next_conc ∧
      st'.events = proxSt.events ∧ st'.invoked = proxSt.invoked :=
  reinit_fresh_handle_no_event proxSt "a" none "simple" false false
    (Handle.prox 0)
    { rotation := "20 MB", retention := "30 days", has_compression := false,
      name_format := "{component_name}.log" } rfl rfl rfl

end PrettyLoguru
